import Mathlib

/-! Verification development for the r6502 assembler front end.
The definitions below are a shallow embedding of src/asm_parser.rs:
the mutable cursor parser becomes explicit state passing over `PState`,
u16 arithmetic becomes Nat with explicit 65535 bounds, and fallible
Rust functions return `Except String`.  Recursions that Rust performs
on the heap (expression parsing, variable substitution) are given an
explicit fuel argument; every theorem supplies sufficient fuel. -/

namespace R6502

/-- Lexical tokens as consumed by asm_parser.rs.  The lexer itself
(asm_lexer.rs) is not part of the sources under verification; the
constructors are exactly those the parser matches on. -/
inductive Token where
  | EOF
  | NEWLINE
  | COMMENT (s : String)
  | EQUAL
  | COLON
  | COMMA
  | HASH
  | PARENTOPEN
  | PARENTCLOSE
  | PLUS
  | MINUS
  | MULT
  | DIV
  | LITERAL (s : String)
  | DIRECTIVE (s : String)
  | STR (s : String)
  | HEX (s : String)
  | DEC (s : String)
  | BIN (s : String)
  | CHAR (s : String)
deriving DecidableEq

/-- Modelled from the spec: the mnemonic identity type `Instr` lives in
the opcode-table module (opcodes.rs), which is not under src/.  We keep
the eight conditional-branch mnemonics that asm_parser.rs names
explicitly, plus representative other mnemonics used by the repository
tests; unknown mnemonics are a hard error in `get_instr`. -/
inductive Instr where
  | BPL | BMI | BVC | BVS | BCC | BCS | BNE | BEQ
  | ASL | LDA | LDX | LDY | NOP | LAX | JMP
deriving DecidableEq

/-- The twelve addressing modes.  The type is declared in opcodes.rs
(not under src/) but its variants are fully determined by the uses in
asm_parser.rs and by the spec's data model. -/
inductive AdrMode where
  | IMPL | REL | IMM
  | IND | INDX | INDY
  | ABS | ABSX | ABSY
  | ZP | ZPX | ZPY
deriving DecidableEq

/-- NumericValue: a 16-bit unsigned value together with its declared
byte width (8 or 16).  `value` is a Nat kept below 65536 by the
checked arithmetic of the evaluator. -/
structure NumericValue where
  value : Nat
  size : Nat
deriving DecidableEq

/-- Math expression tree: binary operation (operator token, two
subtrees), variable placeholder, or numeric literal. -/
inductive MathExpr where
  | BIN (op : Token) (l r : MathExpr)
  | PLACEHOLDER (s : String)
  | NUM (n : NumericValue)
deriving DecidableEq

/-- Instruction operand. -/
inductive Operand where
  | NONE
  | LABEL (s : String)
  | VALUE (n : NumericValue)
deriving DecidableEq

/-- Directives. -/
inductive Directive where
  | ENDPROC
  | PROC (s : String)
  | SEGMENT (s : String)
  | BYTE (vs : List NumericValue)
  | DWORD (vs : List NumericValue)
  | RESERVE (n : Nat)
deriving DecidableEq

/-- Parsed statements. -/
inductive Expr where
  | DIRECTIVE (d : Directive)
  | ASSIGN (s : String) (e : MathExpr)
  | LABEL (s : String)
  | INSTR (i : Instr) (m : AdrMode) (o : Operand)
deriving DecidableEq

/-- Value of one hex digit character, if any (0-9, a-f, A-F). -/
def digitVal (c : Char) : Option Nat :=
  let n := c.toNat
  if 48 ≤ n ∧ n ≤ 57 then some (n - 48)
  else if 97 ≤ n ∧ n ≤ 102 then some (n - 87)
  else if 65 ≤ n ∧ n ≤ 70 then some (n - 55)
  else none

/-- Digit-list accumulator for `from_str_radix`. -/
def parseRadixAux (radix : Nat) : List Char → Nat → Option Nat
  | [], acc => some acc
  | c :: cs, acc =>
    match digitVal c with
    | some d => if d < radix then parseRadixAux radix cs (acc * radix + d) else none
    | none => none

/-- Counterpart of Rust u16::from_str_radix restricted to the digits
themselves: `none` on an empty string or an invalid digit.  The Rust
code unwraps the result, so its behaviour (and every theorem below)
is only about strings on which this parse succeeds and the value fits
in 16 bits. -/
def from_str_radix (radix : Nat) (s : String) : Option Nat :=
  if s.data.isEmpty then none else parseRadixAux radix s.data 0

/-- First character of a char-literal token payload (the Rust code
unwraps `chars().next()`; we use a default that theorems never rely
on). -/
def firstChar (s : String) : Char := s.data.headD (Char.ofNat 0)

/-- canonicalize_number from asm_parser.rs: assigns a numeric token its
value and declared byte size.  Binary: more than 8 digits means 16
bits; decimal: value above 255 or more than 3 digits means 16 bits;
hex: more than 2 digits means 16 bits; char literals are always 8
bits; any other token is an error. -/
def canonicalize_number (n : Token) : Except String NumericValue :=
  match n with
  | Token.BIN bin =>
    let value := (from_str_radix 2 bin).getD 0
    if 8 < bin.length then Except.ok ⟨value, 16⟩ else Except.ok ⟨value, 8⟩
  | Token.DEC dec =>
    let value := (from_str_radix 10 dec).getD 0
    if 255 < value ∨ 3 < dec.length then Except.ok ⟨value, 16⟩ else Except.ok ⟨value, 8⟩
  | Token.HEX hex =>
    let value := (from_str_radix 16 hex).getD 0
    if 2 < hex.length then Except.ok ⟨value, 16⟩ else Except.ok ⟨value, 8⟩
  | Token.CHAR ch => Except.ok ⟨(firstChar ch).toNat, 8⟩
  | _ => Except.error "operand next token is not a number"

/-- Modelled from the spec: `get_instr` looks the uppercased mnemonic
up in the static INSTR table of opcodes.rs (not under src/);
case-insensitive, unknown mnemonics are a hard error. -/
def get_instr (s : String) : Except String Instr :=
  match s.toUpper with
  | "BPL" => Except.ok Instr.BPL
  | "BMI" => Except.ok Instr.BMI
  | "BVC" => Except.ok Instr.BVC
  | "BVS" => Except.ok Instr.BVS
  | "BCC" => Except.ok Instr.BCC
  | "BCS" => Except.ok Instr.BCS
  | "BNE" => Except.ok Instr.BNE
  | "BEQ" => Except.ok Instr.BEQ
  | "ASL" => Except.ok Instr.ASL
  | "LDA" => Except.ok Instr.LDA
  | "LDX" => Except.ok Instr.LDX
  | "LDY" => Except.ok Instr.LDY
  | "NOP" => Except.ok Instr.NOP
  | "LAX" => Except.ok Instr.LAX
  | "JMP" => Except.ok Instr.JMP
  | _ => Except.error "is not a valid instruction"

/-- is_branching from asm_parser.rs: membership in the eight
conditional-branch mnemonics. -/
def is_branching (i : Instr) : Bool :=
  match i with
  | Instr.BPL | Instr.BMI | Instr.BVC | Instr.BVS
  | Instr.BCC | Instr.BCS | Instr.BNE | Instr.BEQ => true
  | _ => false

/-- Parser state: the immutable token sequence, the cursor, and the
variable table (association list, newest binding first, which models
HashMap insert-overwrites-then-get). -/
structure PState where
  tokens : List Token
  cursor : Nat
  vars : List (String × MathExpr)
deriving DecidableEq

/-- curr: the token under the cursor, or EOF past the end. -/
def curr (s : PState) : Token :=
  s.tokens.getD s.cursor Token.EOF

/-- peek_next: one-token look-ahead, or EOF past the end. -/
def peek_next (s : PState) : Token :=
  s.tokens.getD (s.cursor + 1) Token.EOF

def is_eof (s : PState) : Bool :=
  match curr s with
  | Token.EOF => true
  | _ => false

def is_endline (s : PState) : Bool :=
  match curr s with
  | Token.NEWLINE => true
  | _ => false

def is_comment (s : PState) : Bool :=
  match curr s with
  | Token.COMMENT _ => true
  | _ => false

/-- next: advance the cursor, clamped to the token-list length. -/
def next (s : PState) : PState :=
  { s with cursor := min s.tokens.length (s.cursor + 1) }

/-- consume: expect exactly the given token and advance past it. -/
def consume (t : Token) (s : PState) : Except String Token × PState :=
  if curr s = t then (Except.ok t, next s) else (Except.error "a specific token was expected", s)

/-- consume_literal_and_lift: expect any literal, return its text. -/
def consume_literal_and_lift (s : PState) : Except String String × PState :=
  match curr s with
  | Token.LITERAL lit => (Except.ok lit, next s)
  | _ => (Except.error "literal was expected", s)

/-- consume_string_and_lift: expect a string token, return its text. -/
def consume_string_and_lift (s : PState) : Except String String × PState :=
  match curr s with
  | Token.STR str => (Except.ok str, next s)
  | _ => (Except.error "string was expected", s)

/-- consume_literal: expect a literal with exactly the given text.
On failure the cursor does not move. -/
def consume_literal (expected : String) (s : PState) : Except String Token × PState :=
  match curr s with
  | Token.LITERAL lit =>
    if lit ≠ expected then (Except.error "a specific literal was expected", s)
    else (Except.ok (curr s), next s)
  | _ => (Except.error "a specific literal was expected", s)

/-- consume_math_unary: a canonicalized number becomes a NUM leaf, a
literal identifier becomes a PLACEHOLDER, anything else propagates the
canonicalization error without moving the cursor. -/
def consume_math_unary (s : PState) : Except String MathExpr × PState :=
  match canonicalize_number (curr s) with
  | Except.ok number => (Except.ok (MathExpr.NUM number), next s)
  | Except.error e =>
    match curr s with
    | Token.LITERAL str => (Except.ok (MathExpr.PLACEHOLDER str), next s)
    | _ => (Except.error e, s)

/- Recursive-descent expression grammar of asm_parser.rs:
expr is term optionally followed by a plus or minus and a recursive
expr (right-associated); term is factor optionally followed by a times
or divide and a recursive term; factor is a parenthesised expr or a
unary.  The fuel argument only bounds recursion depth; every theorem
supplies enough fuel. -/
mutual

def consume_math_expr : Nat → PState → Except String MathExpr × PState
  | 0, s => (Except.error "recursion limit", s)
  | fuel + 1, s =>
    match consume_math_term fuel s with
    | (Except.error e, s1) => (Except.error e, s1)
    | (Except.ok expr, s1) =>
      if curr s1 = Token.PLUS then
        match consume_math_expr fuel (next s1) with
        | (Except.ok right, s2) => (Except.ok (MathExpr.BIN Token.PLUS expr right), s2)
        | (Except.error e, s2) => (Except.error e, s2)
      else if curr s1 = Token.MINUS then
        match consume_math_expr fuel (next s1) with
        | (Except.ok right, s2) => (Except.ok (MathExpr.BIN Token.MINUS expr right), s2)
        | (Except.error e, s2) => (Except.error e, s2)
      else (Except.ok expr, s1)

def consume_math_term : Nat → PState → Except String MathExpr × PState
  | 0, s => (Except.error "recursion limit", s)
  | fuel + 1, s =>
    match consume_math_factor fuel s with
    | (Except.error e, s1) => (Except.error e, s1)
    | (Except.ok expr, s1) =>
      if curr s1 = Token.MULT then
        match consume_math_term fuel (next s1) with
        | (Except.ok right, s2) => (Except.ok (MathExpr.BIN Token.MULT expr right), s2)
        | (Except.error e, s2) => (Except.error e, s2)
      else if curr s1 = Token.DIV then
        match consume_math_term fuel (next s1) with
        | (Except.ok right, s2) => (Except.ok (MathExpr.BIN Token.DIV expr right), s2)
        | (Except.error e, s2) => (Except.error e, s2)
      else (Except.ok expr, s1)

def consume_math_factor : Nat → PState → Except String MathExpr × PState
  | 0, s => (Except.error "recursion limit", s)
  | fuel + 1, s =>
    if curr s = Token.PARENTOPEN then
      match consume_math_expr fuel (next s) with
      | (Except.ok expr, s1) =>
        match consume Token.PARENTCLOSE s1 with
        | (Except.ok _, s2) => (Except.ok expr, s2)
        | (Except.error e, s2) => (Except.error e, s2)
      | (Except.error e, s1) => (Except.error e, s1)
    else consume_math_unary s

end

/-- Variable-table lookup: first match wins, which together with
prepending on assignment models HashMap insert-then-get. -/
def lookupVar : List (String × MathExpr) → String → Option MathExpr
  | [], _ => none
  | (k, v) :: rest, s => if k = s then some v else lookupVar rest s

/-- Checked 16-bit binary arithmetic of eval_math: the operator match
of the Rust code, with u16 checked_add, checked_mul, checked_sub and
checked_div written as explicit bound, underflow and zero tests over
Nat; the result size is the maximum of the operand sizes. -/
def eval_bin_op (op : Token) (left right : NumericValue) : Except String NumericValue :=
  match op with
  | Token.PLUS =>
    if 65535 < left.value + right.value then Except.error "add overflow"
    else Except.ok ⟨left.value + right.value, max left.size right.size⟩
  | Token.MULT =>
    if 65535 < left.value * right.value then Except.error "multiplication overflow"
    else Except.ok ⟨left.value * right.value, max left.size right.size⟩
  | Token.MINUS =>
    if left.value < right.value then Except.error "substraction overflow"
    else Except.ok ⟨left.value - right.value, max left.size right.size⟩
  | Token.DIV =>
    if right.value = 0 then Except.error "cannot divide by zero"
    else Except.ok ⟨left.value / right.value, max left.size right.size⟩
  | _ => Except.error "binary operator not implemented"

/-- One structural layer of eval_math; `recur` performs the
variable-substitution step of a placeholder. -/
def eval_with (vars : List (String × MathExpr))
    (recur : MathExpr → Except String NumericValue) :
    MathExpr → Except String NumericValue
  | MathExpr.BIN op l r =>
    match eval_with vars recur l with
    | Except.error e => Except.error e
    | Except.ok left =>
      match eval_with vars recur r with
      | Except.error e => Except.error e
      | Except.ok right => eval_bin_op op left right
  | MathExpr.NUM n => Except.ok n
  | MathExpr.PLACEHOLDER str =>
    match lookupVar vars str with
    | some nested => recur nested
    | none => Except.error ("variable is undefined: " ++ str)

/-- eval_math from asm_parser.rs: checked 16-bit arithmetic (overflow,
underflow and divide-by-zero are descriptive errors), result size is
the maximum of the operand sizes, literals keep their canonical size,
placeholders are substituted from the variable table (one unit of fuel
per substitution). -/
def eval_math : Nat → List (String × MathExpr) → MathExpr → Except String NumericValue
  | 0, vars, e => eval_with vars (fun _ => Except.error "recursion limit") e
  | fuel + 1, vars, e => eval_with vars (eval_math fuel vars) e

/-- One structural layer of validate_factors. -/
def validate_with (vars : List (String × MathExpr)) (assignee : Option String)
    (recur : MathExpr → Except String Bool) : MathExpr → Except String Bool
  | MathExpr.NUM _ => Except.ok true
  | MathExpr.BIN _ l r =>
    match validate_with vars assignee recur l with
    | Except.error e => Except.error e
    | Except.ok left =>
      match validate_with vars assignee recur r with
      | Except.error e => Except.error e
      | Except.ok right => Except.ok (left && right)
  | MathExpr.PLACEHOLDER str =>
    if assignee = some str then Except.error ("variable has recursive definition: " ++ str)
    else
      match lookupVar vars str with
      | some nested => recur nested
      | none => Except.error ("variable is undefined: " ++ str)

/-- validate_factors from asm_parser.rs: numbers are fine, binary nodes
validate both sides, a placeholder equal to the assignee is a
recursive-definition error, and any other placeholder recursively
validates its stored definition under the same assignee. -/
def validate_factors : Nat → List (String × MathExpr) → MathExpr → Option String → Except String Bool
  | 0, vars, e, assignee => validate_with vars assignee (fun _ => Except.error "recursion limit") e
  | fuel + 1, vars, e, assignee =>
    validate_with vars assignee (fun x => validate_factors fuel vars x assignee) e

/-- try_expand_math: parse and evaluate an arithmetic expression, or on
parse failure fall back to canonicalizing the single token under the
(possibly advanced) cursor. -/
def try_expand_math (fuel : Nat) (s : PState) : Except String NumericValue × PState :=
  match consume_math_expr fuel s with
  | (Except.ok expr, s1) => (eval_math fuel s1.vars expr, s1)
  | (Except.error _, s1) =>
    match canonicalize_number (curr s1) with
    | Except.ok ret => (Except.ok ret, next s1)
    | Except.error e => (Except.error e, s1)

/-- Relative-branch operand block of state_instr: a canonicalized
number gives relative mode directly; otherwise a bare literal is kept
as an unresolved label, still relative mode.  Branch operands never go
through the arithmetic grammar. -/
def branch_operand (instr : Instr) (s : PState) : Except String Expr × PState :=
  match canonicalize_number (curr s) with
  | Except.ok number => (Except.ok (Expr.INSTR instr AdrMode.REL (Operand.VALUE number)), s)
  | Except.error e =>
    match curr s with
    | Token.LITERAL str => (Except.ok (Expr.INSTR instr AdrMode.REL (Operand.LABEL str)), s)
    | _ => (Except.error e, s)

/-- Immediate operand block of state_instr: consume the hash, parse and
evaluate a full arithmetic expression. -/
def imm_operand (fuel : Nat) (instr : Instr) (s : PState) : Except String Expr × PState :=
  match consume Token.HASH s with
  | (Except.error e, s0) => (Except.error e, s0)
  | (Except.ok _, s1) =>
    match consume_math_expr fuel s1 with
    | (Except.error e, s2) => (Except.error e, s2)
    | (Except.ok expr, s2) =>
      match eval_math fuel s2.vars expr with
      | Except.ok number => (Except.ok (Expr.INSTR instr AdrMode.IMM (Operand.VALUE number)), s2)
      | Except.error e => (Except.error e, s2)

/-- Indirect operand block of state_instr: consume the opening paren
and expand the inner value; a value wider than 8 bits is indirect mode
after the closing paren; otherwise a comma leads to the
comma-x-closeparen indirect-X form, and anything else must be the
closeparen-comma-y indirect-Y form; every other continuation fails at
the corresponding consume. -/
def indirect_operand (fuel : Nat) (instr : Instr) (s : PState) : Except String Expr × PState :=
  match consume Token.PARENTOPEN s with
  | (Except.error e, s0) => (Except.error e, s0)
  | (Except.ok _, s1) =>
    match try_expand_math fuel s1 with
    | (Except.error e, s2) => (Except.error e, s2)
    | (Except.ok number, s2) =>
      if 8 < number.size then
        match consume Token.PARENTCLOSE s2 with
        | (Except.ok _, s3) => (Except.ok (Expr.INSTR instr AdrMode.IND (Operand.VALUE number)), s3)
        | (Except.error e, s3) => (Except.error e, s3)
      else
        if curr s2 = Token.COMMA then
          match consume Token.COMMA s2 with
          | (Except.error e, s3) => (Except.error e, s3)
          | (Except.ok _, s3) =>
            match consume_literal "x" s3 with
            | (Except.error e, s4) => (Except.error e, s4)
            | (Except.ok _, s4) =>
              match consume Token.PARENTCLOSE s4 with
              | (Except.ok _, s5) =>
                (Except.ok (Expr.INSTR instr AdrMode.INDX (Operand.VALUE number)), s5)
              | (Except.error e, s5) => (Except.error e, s5)
        else
          match consume Token.PARENTCLOSE s2 with
          | (Except.error e, s3) => (Except.error e, s3)
          | (Except.ok _, s3) =>
            match consume Token.COMMA s3 with
            | (Except.error e, s4) => (Except.error e, s4)
            | (Except.ok _, s4) =>
              match consume_literal "y" s4 with
              | (Except.ok _, s5) =>
                (Except.ok (Expr.INSTR instr AdrMode.INDY (Operand.VALUE number)), s5)
              | (Except.error e, s5) => (Except.error e, s5)

/-- Shared comma-x or comma-y suffix handling of the absolute and
zero-page blocks of state_instr (the Rust code repeats this block once
per width): no comma keeps the base mode, a comma followed by literal
x or literal y selects the indexed mode, anything else is an error. -/
def consume_index_suffix (s : PState) (xmode ymode base : AdrMode) :
    Except String AdrMode × PState :=
  if curr s = Token.COMMA then
    match consume Token.COMMA s with
    | (Except.error e, s1) => (Except.error e, s1)
    | (Except.ok _, s1) =>
      match consume_literal "x" s1 with
      | (Except.ok _, s2) => (Except.ok xmode, s2)
      | (Except.error _, s2) =>
        match consume_literal "y" s2 with
        | (Except.ok _, s3) => (Except.ok ymode, s3)
        | (Except.error e, s3) => (Except.error e, s3)
  else (Except.ok base, s)

/-- Absolute and zero-page block of state_instr: expand the operand
value; a size above 8 bits selects absolute (with optional comma-x or
comma-y), otherwise zero-page (with optional comma-x or comma-y). -/
def abszp_operand (fuel : Nat) (instr : Instr) (s : PState) : Except String Expr × PState :=
  match try_expand_math fuel s with
  | (Except.error e, s1) => (Except.error e, s1)
  | (Except.ok number, s1) =>
    if 8 < number.size then
      match consume_index_suffix s1 AdrMode.ABSX AdrMode.ABSY AdrMode.ABS with
      | (Except.ok mode, s2) => (Except.ok (Expr.INSTR instr mode (Operand.VALUE number)), s2)
      | (Except.error e, s2) => (Except.error e, s2)
    else
      match consume_index_suffix s1 AdrMode.ZPX AdrMode.ZPY AdrMode.ZP with
      | (Except.ok mode, s2) => (Except.ok (Expr.INSTR instr mode (Operand.VALUE number)), s2)
      | (Except.error e, s2) => (Except.error e, s2)

/-- Body of state_instr after the mnemonic has been consumed, following
the Rust control flow block for block: end of statement means implied
mode; branch mnemonics take the relative block; a hash takes the
immediate block; an opening paren takes the indirect block; everything
else takes the absolute-or-zero-page block. -/
def state_instr_operand (fuel : Nat) (instr : Instr) (s : PState) : Except String Expr × PState :=
  if is_endline s || is_eof s || is_comment s then
    (Except.ok (Expr.INSTR instr AdrMode.IMPL Operand.NONE), s)
  else if is_branching instr then branch_operand instr s
  else if curr s = Token.HASH then imm_operand fuel instr s
  else if curr s = Token.PARENTOPEN then indirect_operand fuel instr s
  else abszp_operand fuel instr s

/-- state_instr: decode the mnemonic under the cursor, advance past it
and resolve the operand. -/
def state_instr (fuel : Nat) (s : PState) : Except String Expr × PState :=
  match curr s with
  | Token.LITERAL i =>
    match get_instr i with
    | Except.ok instr => state_instr_operand fuel instr (next s)
    | Except.error e => (Except.error e, s)
  | _ => (Except.error "is not a literal", s)

/-- String payload of a word-width byte-sequence directive: packed two
big-endian characters per 16-bit value (the Rust expression is
hi shifted left by eight, or-ed with lo, over u16). -/
def string_to_words : List Char → List NumericValue
  | hi :: lo :: rest =>
    ⟨(hi.toNat % 65536 * 256) % 65536 ||| lo.toNat % 65536, 16⟩ :: string_to_words rest
  | _ => []

/-- String payload of a byte-width byte-sequence directive: one value
per character. -/
def string_to_bytes (cs : List Char) : List NumericValue :=
  cs.map (fun c => ⟨c.toNat % 65536, 8⟩)

/-- Loop of consume_sequence: until end of line, comment or end of
file, read either a string payload or an evaluated math expression;
an operand wider than the directive width is a hard error; narrower
operands are promoted to the directive width; a comma separator is
consumed when present. -/
def consume_sequence_loop :
    Nat → Nat → PState → List NumericValue → Except String (List NumericValue) × PState
  | 0, _, s, _ => (Except.error "recursion limit", s)
  | fuel + 1, size, s, seq =>
    if is_eof s || is_endline s || is_comment s then (Except.ok seq, s)
    else
      match curr s with
      | Token.STR str =>
        if size = 16 then
          if str.length % 2 ≠ 0 then
            (Except.error "string length must be a multiple of 2 to form words", s)
          else
            let s1 := next s
            let s2 := if curr s1 = Token.COMMA then next s1 else s1
            consume_sequence_loop fuel size s2 (seq ++ string_to_words str.data)
        else
          let s1 := next s
          let s2 := if curr s1 = Token.COMMA then next s1 else s1
          consume_sequence_loop fuel size s2 (seq ++ string_to_bytes str.data)
      | _ =>
        match consume_math_expr fuel s with
        | (Except.error e, s1) => (Except.error e, s1)
        | (Except.ok expr, s1) =>
          match eval_math fuel s1.vars expr with
          | Except.error e => (Except.error e, s1)
          | Except.ok value =>
            if size < value.size then (Except.error "value is too wide for the sequence", s1)
            else
              let s2 := if curr s1 = Token.COMMA then next s1 else s1
              consume_sequence_loop fuel size s2 (seq ++ [⟨value.value, max value.size size⟩])

/-- consume_sequence from asm_parser.rs. -/
def consume_sequence (fuel size : Nat) (s : PState) :
    Except String (List NumericValue) × PState :=
  if size ≠ 8 ∧ size ≠ 16 then (Except.error "size must be 8 or 16", s)
  else consume_sequence_loop fuel size s []

/-- Directive dispatch block of parse: the match over the directive
name string, with the cursor still on the directive token.  The byte
and dword families each accept the exact lowercase and exact uppercase
spellings; segment, proc, endproc and res accept only the lowercase
spelling; every other name is an unexpected-token error. -/
def directive_dispatch (fuel : Nat) (name : String) (s : PState) :
    Except String Expr × PState :=
  match name with
  | "byte" | "BYTE" | "db" | "DB" =>
    match consume_sequence fuel 8 (next s) with
    | (Except.ok seq, s1) => (Except.ok (Expr.DIRECTIVE (Directive.BYTE seq)), s1)
    | (Except.error e, s1) => (Except.error e, s1)
  | "dword" | "DWORD" | "dw" | "DW" =>
    match consume_sequence fuel 16 (next s) with
    | (Except.ok seq, s1) => (Except.ok (Expr.DIRECTIVE (Directive.DWORD seq)), s1)
    | (Except.error e, s1) => (Except.error e, s1)
  | "segment" =>
    match consume_string_and_lift (next s) with
    | (Except.ok segname, s1) => (Except.ok (Expr.DIRECTIVE (Directive.SEGMENT segname)), s1)
    | (Except.error e, s1) => (Except.error e, s1)
  | "proc" =>
    match consume_literal_and_lift (next s) with
    | (Except.ok procname, s1) => (Except.ok (Expr.DIRECTIVE (Directive.PROC procname)), s1)
    | (Except.error e, s1) => (Except.error e, s1)
  | "endproc" => (Except.ok (Expr.DIRECTIVE Directive.ENDPROC), next s)
  | "res" =>
    match curr (next s) with
    | Token.DEC n =>
      (Except.ok (Expr.DIRECTIVE (Directive.RESERVE ((from_str_radix 10 n).getD 0))),
        next (next s))
    | _ => (Except.error "decimal number was expected", next s)
  | _ => (Except.error ("token unexpected: " ++ name), s)

/-- state_assign: literal, equals sign, expression; the expression is
validated against the assignee before the binding is committed to the
variable table. -/
def state_assign (fuel : Nat) (s : PState) : Except String Expr × PState :=
  match consume_literal_and_lift s with
  | (Except.error e, s1) => (Except.error e, s1)
  | (Except.ok symbol, s1) =>
    match consume Token.EQUAL s1 with
    | (Except.error e, s2) => (Except.error e, s2)
    | (Except.ok _, s2) =>
      match consume_math_expr fuel s2 with
      | (Except.error e, s3) => (Except.error e, s3)
      | (Except.ok number, s3) =>
        match validate_factors fuel s3.vars number (some symbol) with
        | Except.error e => (Except.error e, s3)
        | Except.ok b =>
          if !b then (Except.error (symbol ++ " rhs is not valid"), s3)
          else
            (Except.ok (Expr.ASSIGN symbol number),
              { s3 with vars := (symbol, number) :: s3.vars })

/-- state_label: literal followed by a colon. -/
def state_label (s : PState) : Except String Expr × PState :=
  match consume_literal_and_lift s with
  | (Except.error e, s1) => (Except.error e, s1)
  | (Except.ok name, s1) =>
    match consume Token.COLON s1 with
    | (Except.ok _, s2) => (Except.ok (Expr.LABEL name), s2)
    | (Except.error e, s2) => (Except.error e, s2)

/-- Main statement loop of parse: skip newlines and comments, dispatch
on one-token look-ahead to assignment or label declaration, then on
the current token to directive handling, and fall through to an
instruction (advancing one extra token afterwards, as the Rust loop
does). -/
def parse_loop : Nat → PState → List Expr → Except String (List Expr) × PState
  | 0, s, _ => (Except.error "recursion limit", s)
  | fuel + 1, s, prog =>
    if is_eof s then (Except.ok prog, s)
    else if is_endline s || is_comment s then parse_loop fuel (next s) prog
    else if peek_next s = Token.EQUAL then
      match curr s with
      | Token.LITERAL _ =>
        match state_assign fuel s with
        | (Except.ok e, s1) => parse_loop fuel s1 (prog ++ [e])
        | (Except.error er, s1) => (Except.error er, s1)
      | _ => (Except.error "assign expression expects a literal lhs and an expression rhs", s)
    else if peek_next s = Token.COLON then
      match curr s with
      | Token.LITERAL _ =>
        match state_label s with
        | (Except.ok e, s1) => parse_loop fuel s1 (prog ++ [e])
        | (Except.error er, s1) => (Except.error er, s1)
      | _ => (Except.error "label expression expects a literal lhs and an expression rhs", s)
    else
      match curr s with
      | Token.DIRECTIVE name =>
        match directive_dispatch fuel name s with
        | (Except.ok e, s1) => parse_loop fuel s1 (prog ++ [e])
        | (Except.error er, s1) => (Except.error er, s1)
      | Token.COMMENT _ => parse_loop fuel (next s) prog
      | _ =>
        match state_instr fuel s with
        | (Except.ok e, s1) => parse_loop fuel (next s1) (prog ++ [e])
        | (Except.error er, s1) => (Except.error er, s1)

/-- parse: run the statement loop from cursor zero with an empty
variable table. -/
def parse (fuel : Nat) (tokens : List Token) : Except String (List Expr) × PState :=
  parse_loop fuel ⟨tokens, 0, []⟩ []

/-- Modelled from the spec: the symbol resolver (compiler.rs, not under
src/) computes a relative branch operand as
target_address - (address_of_instruction + instruction_length) with
instruction_length 2 for branches, and fails hard when the offset lies
outside the signed 8-bit range. -/
def resolve_branch_offset (target addr : Nat) : Except String Int :=
  let off : Int := (target : Int) - ((addr : Int) + 2)
  if off < -128 ∨ 127 < off then Except.error "branch target out of signed 8-bit range"
  else Except.ok off

/-- Two-complement byte encoding of a signed relative offset. -/
def encode_rel (off : Int) : Nat := (off % 256).toNat

/-- Unfolding lemma: whatever the fuel, evaluating a binary node first
evaluates the left operand, then the right, then applies the checked
operator arithmetic. -/
theorem eval_math_bin_eq (fuel : Nat) (vars : List (String × MathExpr))
    (op : Token) (l r : MathExpr) :
    eval_math fuel vars (MathExpr.BIN op l r) =
      match eval_math fuel vars l with
      | Except.error e => Except.error e
      | Except.ok left =>
        match eval_math fuel vars r with
        | Except.error e => Except.error e
        | Except.ok right => eval_bin_op op left right := by
  cases fuel <;> rfl

/-- Unfolding lemma: literal leaves evaluate to themselves at any
fuel. -/
theorem eval_math_num_eq (fuel : Nat) (vars : List (String × MathExpr)) (n : NumericValue) :
    eval_math fuel vars (MathExpr.NUM n) = Except.ok n := by
  cases fuel <;> rfl

/-- C10: every cursor move goes through `next`, whose result is clamped
to the token-list length, so the cursor never exceeds it; and the
current-token and one-token-look-ahead accessors are total, returning
the end-of-file token instead of failing whenever the cursor (or
cursor plus one) is past the end of the token sequence. -/
theorem parser_cursor_safety (s : PState) :
    (next s).cursor ≤ s.tokens.length ∧
    (s.tokens.length ≤ s.cursor → curr s = Token.EOF) ∧
    (s.tokens.length ≤ s.cursor + 1 → peek_next s = Token.EOF) := by
  refine ⟨?_, ?_, ?_⟩
  · simp [next]
  · intro h
    exact List.getD_eq_default _ _ h
  · intro h
    exact List.getD_eq_default _ _ h

theorem parser_cursor_safety_witness :
    (next ⟨[Token.NEWLINE], 5, []⟩).cursor ≤ 1 ∧
    curr ⟨[Token.NEWLINE], 5, []⟩ = Token.EOF ∧
    peek_next ⟨[Token.NEWLINE], 5, []⟩ = Token.EOF :=
  ⟨(parser_cursor_safety ⟨[Token.NEWLINE], 5, []⟩).1,
   (parser_cursor_safety ⟨[Token.NEWLINE], 5, []⟩).2.1 (by decide),
   (parser_cursor_safety ⟨[Token.NEWLINE], 5, []⟩).2.2 (by decide)⟩

/-- C3: canonicalization assigns size 16 to a hex literal exactly when
it has more than 2 digits, to a binary literal exactly when it has
more than 8 digits, to a decimal literal exactly when its value
exceeds 255 or it has more than 3 digits, and size 8 otherwise; char
literals are always size 8.  The hypotheses restrict to digit strings
the Rust code can unwrap (valid digits, value within u16). -/
theorem canonicalize_number_size_rule (s : String) (v : Nat) (n : NumericValue) :
    (from_str_radix 16 s = some v → v < 65536 →
      canonicalize_number (Token.HEX s) = Except.ok ⟨v, if 2 < s.length then 16 else 8⟩) ∧
    (from_str_radix 2 s = some v → v < 65536 →
      canonicalize_number (Token.BIN s) = Except.ok ⟨v, if 8 < s.length then 16 else 8⟩) ∧
    (from_str_radix 10 s = some v → v < 65536 →
      canonicalize_number (Token.DEC s) =
        Except.ok ⟨v, if 255 < v ∨ 3 < s.length then 16 else 8⟩) ∧
    (canonicalize_number (Token.CHAR s) = Except.ok n → n.size = 8) := by
  refine ⟨?_, ?_, ?_, ?_⟩
  · intro h _
    simp only [canonicalize_number, h, Option.getD_some]
    by_cases hl : 2 < s.length <;> simp [hl]
  · intro h _
    simp only [canonicalize_number, h, Option.getD_some]
    by_cases hl : 8 < s.length <;> simp [hl]
  · intro h _
    simp only [canonicalize_number, h, Option.getD_some]
    by_cases hc : 255 < v ∨ 3 < s.length <;> simp [hc]
  · intro h
    simp only [canonicalize_number, Except.ok.injEq] at h
    rw [← h]

theorem canonicalize_number_size_rule_witness :
    canonicalize_number (Token.HEX "a") = Except.ok ⟨10, 8⟩ ∧
    canonicalize_number (Token.HEX "00aa") = Except.ok ⟨170, 16⟩ ∧
    canonicalize_number (Token.DEC "255") = Except.ok ⟨255, 8⟩ ∧
    canonicalize_number (Token.DEC "256") = Except.ok ⟨256, 16⟩ ∧
    canonicalize_number (Token.DEC "0255") = Except.ok ⟨255, 16⟩ :=
  ⟨by have h := (canonicalize_number_size_rule "a" 10 ⟨0, 0⟩).1 (by decide) (by decide)
      simpa using h,
   by have h := (canonicalize_number_size_rule "00aa" 170 ⟨0, 0⟩).1 (by decide) (by decide)
      simpa using h,
   by have h := (canonicalize_number_size_rule "255" 255 ⟨0, 0⟩).2.2.1 (by decide) (by decide)
      simpa using h,
   by have h := (canonicalize_number_size_rule "256" 256 ⟨0, 0⟩).2.2.1 (by decide) (by decide)
      simpa using h,
   by have h := (canonicalize_number_size_rule "0255" 255 ⟨0, 0⟩).2.2.1 (by decide) (by decide)
      simpa using h⟩

/-- C2: evaluating the spec-modelled relative-branch resolver at the
branch of the repository's own simple_compilation test: the label sits
at byte offset 11 (after the 11 bytes of the HELLO WORLD byte
directive) and the BNE instruction at offset 20, so the claimed
formula target - (branch_address + 2) gives -11, encoded as byte 245
(hex f5); the test instead asserts the emitted operand byte is 10
(hex 0a), the label address, so the shipped resolver diverges from
the claimed relative-offset semantics. -/
theorem branch_offset_divergence :
    resolve_branch_offset 11 20 = Except.ok (-11) ∧
    encode_rel (-11) = 245 ∧ (245 : Nat) ≠ 10 :=
  ⟨rfl, rfl, by decide⟩

/-- C5 counterexample: the right-hand side of the third assignment
references the assignee x only transitively (x is assigned y, and y
was previously bound to x), yet the parser rejects it with the
recursive-definition error, so the validator does reject transitive
references. -/
theorem self_reference_transitive_rejected :
    (parse 20 [Token.LITERAL "x", Token.EQUAL, Token.DEC "1", Token.NEWLINE,
               Token.LITERAL "y", Token.EQUAL, Token.LITERAL "x", Token.NEWLINE,
               Token.LITERAL "x", Token.EQUAL, Token.LITERAL "y"]).1 =
      Except.error ("variable has recursive definition: " ++ "x") := rfl

/-- C5 amended: the validator rejects a right-hand side that references
the variable being assigned directly, and, because a placeholder other
than the assignee is recursively validated through its stored
definition under the same assignee, it equally rejects right-hand
sides that reach the assignee transitively through other variables. -/
theorem validate_factors_direct_and_transitive (fuel : Nat)
    (vars : List (String × MathExpr)) (a b : String) (e : MathExpr) :
    validate_factors fuel vars (MathExpr.PLACEHOLDER a) (some a) =
      Except.error ("variable has recursive definition: " ++ a) ∧
    (a ≠ b → lookupVar vars b = some e →
      validate_factors (fuel + 1) vars (MathExpr.PLACEHOLDER b) (some a) =
        validate_factors fuel vars e (some a)) := by
  constructor
  · cases fuel <;> simp [validate_factors, validate_with]
  · intro hne hl
    simp [validate_factors, validate_with, hl, hne]

theorem validate_factors_direct_and_transitive_witness :
    validate_factors 1 [("y", MathExpr.PLACEHOLDER "x")]
        (MathExpr.PLACEHOLDER "y") (some "x") =
      validate_factors 0 [("y", MathExpr.PLACEHOLDER "x")]
        (MathExpr.PLACEHOLDER "x") (some "x") ∧
    validate_factors 0 [] (MathExpr.PLACEHOLDER "x") (some "x") =
      Except.error ("variable has recursive definition: " ++ "x") :=
  ⟨(validate_factors_direct_and_transitive 0 [("y", MathExpr.PLACEHOLDER "x")] "x" "y"
      (MathExpr.PLACEHOLDER "x")).2 (by decide) rfl,
   (validate_factors_direct_and_transitive 0 [] "x" "y" (MathExpr.NUM ⟨0, 0⟩)).1⟩

/-- C6 counterexample: the all-uppercase spelling of the segment
directive is not recognized; the parser reports an unexpected token
instead of parsing a segment directive. -/
theorem directive_uppercase_segment_rejected :
    (parse 10 [Token.DIRECTIVE "SEGMENT", Token.STR "CODE"]).1 =
      Except.error ("token unexpected: " ++ "SEGMENT") := rfl

/-- C6 amended: the recognized directive spellings are exactly byte,
BYTE, db, DB, dword, DWORD, dw, DW, segment, proc, endproc and res.
Each spelling is genuinely recognized (a whole-program parse of a
directive statement under each spelling succeeds with the
corresponding directive, so byte and dword are accepted in both their
all-lowercase and all-uppercase spellings while segment, proc,
endproc and res are accepted in lowercase), the spellings of one
family dispatch identically, and every name outside that list - which
includes SEGMENT, PROC, ENDPROC, RES and mixed case spellings such as
Byte - dispatches to the unexpected-token error. -/
theorem directive_case_rule (fuel : Nat) (s : PState) (name : String) :
    (directive_dispatch fuel "BYTE" s = directive_dispatch fuel "byte" s ∧
     directive_dispatch fuel "db" s = directive_dispatch fuel "byte" s ∧
     directive_dispatch fuel "DB" s = directive_dispatch fuel "byte" s ∧
     directive_dispatch fuel "DWORD" s = directive_dispatch fuel "dword" s ∧
     directive_dispatch fuel "dw" s = directive_dispatch fuel "dword" s ∧
     directive_dispatch fuel "DW" s = directive_dispatch fuel "dword" s) ∧
    ((parse 10 [Token.DIRECTIVE "byte", Token.DEC "1"]).1 =
        Except.ok [Expr.DIRECTIVE (Directive.BYTE [⟨1, 8⟩])] ∧
     (parse 10 [Token.DIRECTIVE "BYTE", Token.DEC "1"]).1 =
        Except.ok [Expr.DIRECTIVE (Directive.BYTE [⟨1, 8⟩])] ∧
     (parse 10 [Token.DIRECTIVE "db", Token.DEC "1"]).1 =
        Except.ok [Expr.DIRECTIVE (Directive.BYTE [⟨1, 8⟩])] ∧
     (parse 10 [Token.DIRECTIVE "DB", Token.DEC "1"]).1 =
        Except.ok [Expr.DIRECTIVE (Directive.BYTE [⟨1, 8⟩])] ∧
     (parse 10 [Token.DIRECTIVE "dword", Token.DEC "1"]).1 =
        Except.ok [Expr.DIRECTIVE (Directive.DWORD [⟨1, 16⟩])] ∧
     (parse 10 [Token.DIRECTIVE "DWORD", Token.DEC "1"]).1 =
        Except.ok [Expr.DIRECTIVE (Directive.DWORD [⟨1, 16⟩])] ∧
     (parse 10 [Token.DIRECTIVE "dw", Token.DEC "1"]).1 =
        Except.ok [Expr.DIRECTIVE (Directive.DWORD [⟨1, 16⟩])] ∧
     (parse 10 [Token.DIRECTIVE "DW", Token.DEC "1"]).1 =
        Except.ok [Expr.DIRECTIVE (Directive.DWORD [⟨1, 16⟩])] ∧
     (parse 10 [Token.DIRECTIVE "segment", Token.STR "CODE"]).1 =
        Except.ok [Expr.DIRECTIVE (Directive.SEGMENT "CODE")] ∧
     (parse 10 [Token.DIRECTIVE "proc", Token.LITERAL "main"]).1 =
        Except.ok [Expr.DIRECTIVE (Directive.PROC "main")] ∧
     (parse 10 [Token.DIRECTIVE "endproc"]).1 =
        Except.ok [Expr.DIRECTIVE Directive.ENDPROC] ∧
     (parse 10 [Token.DIRECTIVE "res", Token.DEC "4"]).1 =
        Except.ok [Expr.DIRECTIVE (Directive.RESERVE 4)]) ∧
    (name ∉ ["byte", "BYTE", "db", "DB", "dword", "DWORD", "dw", "DW",
             "segment", "proc", "endproc", "res"] →
      directive_dispatch fuel name s = (Except.error ("token unexpected: " ++ name), s)) := by
  refine ⟨⟨rfl, rfl, rfl, rfl, rfl, rfl⟩,
    ⟨rfl, rfl, rfl, rfl, rfl, rfl, rfl, rfl, rfl, rfl, rfl, rfl⟩, ?_⟩
  intro h
  simp only [List.mem_cons, List.not_mem_nil, or_false, not_or] at h
  unfold directive_dispatch
  split
  all_goals simp_all

theorem directive_case_rule_witness :
    directive_dispatch 5 "SEGMENT" ⟨[], 0, []⟩ =
      (Except.error ("token unexpected: " ++ "SEGMENT"), ⟨[], 0, []⟩) ∧
    directive_dispatch 5 "Byte" ⟨[], 0, []⟩ =
      (Except.error ("token unexpected: " ++ "Byte"), ⟨[], 0, []⟩) :=
  ⟨(directive_case_rule 5 ⟨[], 0, []⟩ "SEGMENT").2.2 (by decide),
   (directive_case_rule 5 ⟨[], 0, []⟩ "Byte").2.2 (by decide)⟩

/-- C7: with both operands evaluated as 16-bit values, a binary node
evaluates to a descriptive error exactly when addition or
multiplication exceeds 65535, subtraction would go below zero, or the
divisor is zero; otherwise it evaluates to the exact result (with the
propagated size). -/
theorem eval_math_checked_arithmetic (fuel : Nat) (vars : List (String × MathExpr))
    (l r : MathExpr) (left right : NumericValue)
    (hl : eval_math fuel vars l = Except.ok left)
    (hr : eval_math fuel vars r = Except.ok right)
    (hlb : left.value < 65536) (hrb : right.value < 65536) :
    (eval_math fuel vars (MathExpr.BIN Token.PLUS l r) =
      if 65535 < left.value + right.value then Except.error "add overflow"
      else Except.ok ⟨left.value + right.value, max left.size right.size⟩) ∧
    (eval_math fuel vars (MathExpr.BIN Token.MULT l r) =
      if 65535 < left.value * right.value then Except.error "multiplication overflow"
      else Except.ok ⟨left.value * right.value, max left.size right.size⟩) ∧
    (eval_math fuel vars (MathExpr.BIN Token.MINUS l r) =
      if left.value < right.value then Except.error "substraction overflow"
      else Except.ok ⟨left.value - right.value, max left.size right.size⟩) ∧
    (eval_math fuel vars (MathExpr.BIN Token.DIV l r) =
      if right.value = 0 then Except.error "cannot divide by zero"
      else Except.ok ⟨left.value / right.value, max left.size right.size⟩) := by
  refine ⟨?_, ?_, ?_, ?_⟩ <;>
    rw [eval_math_bin_eq, hl, hr] <;> rfl

theorem eval_math_checked_arithmetic_witness :
    eval_math 0 [] (MathExpr.BIN Token.PLUS
        (MathExpr.NUM ⟨65535, 16⟩) (MathExpr.NUM ⟨1, 8⟩)) =
      Except.error "add overflow" ∧
    eval_math 0 [] (MathExpr.BIN Token.DIV
        (MathExpr.NUM ⟨10, 8⟩) (MathExpr.NUM ⟨0, 16⟩)) =
      Except.error "cannot divide by zero" ∧
    eval_math 0 [] (MathExpr.BIN Token.MINUS
        (MathExpr.NUM ⟨7, 8⟩) (MathExpr.NUM ⟨9, 8⟩)) =
      Except.error "substraction overflow" ∧
    eval_math 0 [] (MathExpr.BIN Token.PLUS
        (MathExpr.NUM ⟨7, 8⟩) (MathExpr.NUM ⟨9, 8⟩)) =
      Except.ok ⟨16, 8⟩ :=
  ⟨by have h := (eval_math_checked_arithmetic 0 [] (MathExpr.NUM ⟨65535, 16⟩)
        (MathExpr.NUM ⟨1, 8⟩) ⟨65535, 16⟩ ⟨1, 8⟩ rfl rfl (by decide) (by decide)).1
      simpa using h,
   by have h := (eval_math_checked_arithmetic 0 [] (MathExpr.NUM ⟨10, 8⟩)
        (MathExpr.NUM ⟨0, 16⟩) ⟨10, 8⟩ ⟨0, 16⟩ rfl rfl (by decide) (by decide)).2.2.2
      simpa using h,
   by have h := (eval_math_checked_arithmetic 0 [] (MathExpr.NUM ⟨7, 8⟩)
        (MathExpr.NUM ⟨9, 8⟩) ⟨7, 8⟩ ⟨9, 8⟩ rfl rfl (by decide) (by decide)).2.2.1
      simpa using h,
   by have h := (eval_math_checked_arithmetic 0 [] (MathExpr.NUM ⟨7, 8⟩)
        (MathExpr.NUM ⟨9, 8⟩) ⟨7, 8⟩ ⟨9, 8⟩ rfl rfl (by decide) (by decide)).1
      simpa using h⟩

/-- C8: a successfully evaluated binary node carries exactly the
maximum of its two evaluated operands' sizes, and evaluating a literal
leaf returns that literal unchanged, keeping its canonical size. -/
theorem eval_math_size_propagation (fuel : Nat) (vars : List (String × MathExpr))
    (n : NumericValue) (op : Token) (l r : MathExpr) (left right v : NumericValue) :
    eval_math fuel vars (MathExpr.NUM n) = Except.ok n ∧
    (eval_math fuel vars l = Except.ok left →
     eval_math fuel vars r = Except.ok right →
     eval_math fuel vars (MathExpr.BIN op l r) = Except.ok v →
     v.size = max left.size right.size) := by
  constructor
  · exact eval_math_num_eq fuel vars n
  · intro hl hr hres
    rw [eval_math_bin_eq, hl, hr] at hres
    cases op <;>
      first
        | (simp only [eval_bin_op] at hres
           split at hres
           · exact absurd hres (by simp)
           · injection hres with h
             rw [← h])
        | (simp only [eval_bin_op] at hres
           exact absurd hres (by simp))

/-- Inversion for `consume`: a successful consume means the expected
token was under the cursor and the state advanced by one. -/
theorem consume_ok {t : Token} {s : PState} {u : Token} {s1 : PState}
    (h : consume t s = (Except.ok u, s1)) :
    curr s = t ∧ u = t ∧ s1 = next s := by
  unfold consume at h
  split at h
  · next hc => simp_all
  · simp at h

/-- Inversion for `consume_literal`: a successful consume means exactly
the expected literal was under the cursor and the state advanced by
one. -/
theorem consume_literal_ok {lit : String} {s : PState} {u : Token} {s1 : PState}
    (h : consume_literal lit s = (Except.ok u, s1)) :
    curr s = Token.LITERAL lit ∧ s1 = next s := by
  unfold consume_literal at h
  split at h
  · next l hc =>
    split at h
    · simp at h
    · next hne =>
      simp only [ne_eq, Decidable.not_not] at hne
      subst hne
      simp_all
  · simp at h

/-- A successful index-suffix consume yields one of the three modes it
was offered. -/
theorem consume_index_suffix_mode {s : PState} {x y b m : AdrMode} {s2 : PState}
    (h : consume_index_suffix s x y b = (Except.ok m, s2)) :
    m = x ∨ m = y ∨ m = b := by
  unfold consume_index_suffix at h
  repeat' split at h
  all_goals simp_all

/-- C1: with an operand that is not at end of statement, not a branch,
not immediate and not parenthesised, a successful resolution always
carries the evaluated operand value, and its addressing mode is
zero-page-family exactly when the value's size is at most 8 bits and
absolute-family exactly when it exceeds 8 bits, whatever the surface
syntax of the operand expression was. -/
theorem adrmode_by_operand_size (fuel : Nat) (instr : Instr) (s : PState)
    (v : NumericValue) (s1 : PState) (e : Expr) (s2 : PState)
    (hbr : is_branching instr = false)
    (h1 : is_endline s = false) (h2 : is_eof s = false) (h3 : is_comment s = false)
    (hh : curr s ≠ Token.HASH) (hp : curr s ≠ Token.PARENTOPEN)
    (hex : try_expand_math fuel s = (Except.ok v, s1))
    (hres : state_instr_operand fuel instr s = (Except.ok e, s2)) :
    (v.size ≤ 8 →
      e = Expr.INSTR instr AdrMode.ZP (Operand.VALUE v) ∨
      e = Expr.INSTR instr AdrMode.ZPX (Operand.VALUE v) ∨
      e = Expr.INSTR instr AdrMode.ZPY (Operand.VALUE v)) ∧
    (8 < v.size →
      e = Expr.INSTR instr AdrMode.ABS (Operand.VALUE v) ∨
      e = Expr.INSTR instr AdrMode.ABSX (Operand.VALUE v) ∨
      e = Expr.INSTR instr AdrMode.ABSY (Operand.VALUE v)) := by
  have hstep : state_instr_operand fuel instr s = abszp_operand fuel instr s := by
    unfold state_instr_operand
    simp [h1, h2, h3, hbr, hh, hp]
  rw [hstep] at hres
  unfold abszp_operand at hres
  simp only [hex] at hres
  by_cases hsz : 8 < v.size
  · rw [if_pos hsz] at hres
    refine ⟨fun hle => absurd hsz (by omega), fun _ => ?_⟩
    split at hres
    · next mode s2' heq =>
      simp only [Prod.mk.injEq, Except.ok.injEq] at hres
      obtain ⟨he, _⟩ := hres
      rcases consume_index_suffix_mode heq with rfl | rfl | rfl <;> tauto
    · simp at hres
  · rw [if_neg hsz] at hres
    refine ⟨fun _ => ?_, fun hgt => absurd hgt hsz⟩
    split at hres
    · next mode s2' heq =>
      simp only [Prod.mk.injEq, Except.ok.injEq] at hres
      obtain ⟨he, _⟩ := hres
      rcases consume_index_suffix_mode heq with rfl | rfl | rfl <;> tauto
    · simp at hres

theorem adrmode_by_operand_size_witness :
    Expr.INSTR Instr.ASL AdrMode.ZP (Operand.VALUE ⟨174, 8⟩) =
      Expr.INSTR Instr.ASL AdrMode.ZP (Operand.VALUE ⟨174, 8⟩) ∨
    Expr.INSTR Instr.ASL AdrMode.ZP (Operand.VALUE ⟨174, 8⟩) =
      Expr.INSTR Instr.ASL AdrMode.ZPX (Operand.VALUE ⟨174, 8⟩) ∨
    Expr.INSTR Instr.ASL AdrMode.ZP (Operand.VALUE ⟨174, 8⟩) =
      Expr.INSTR Instr.ASL AdrMode.ZPY (Operand.VALUE ⟨174, 8⟩) :=
  (adrmode_by_operand_size 9 Instr.ASL
      ⟨[Token.HEX "aa", Token.PLUS, Token.DEC "2", Token.MULT, Token.BIN "010"], 0, []⟩
      ⟨174, 8⟩
      ⟨[Token.HEX "aa", Token.PLUS, Token.DEC "2", Token.MULT, Token.BIN "010"], 5, []⟩
      (Expr.INSTR Instr.ASL AdrMode.ZP (Operand.VALUE ⟨174, 8⟩))
      ⟨[Token.HEX "aa", Token.PLUS, Token.DEC "2", Token.MULT, Token.BIN "010"], 5, []⟩
      rfl rfl rfl rfl (by decide) (by decide) rfl rfl).1 (by decide)

/-- C4: with a parenthesised operand on a non-branch instruction, a
successful resolution carries the expanded inner value; a value wider
than 8 bits gives indirect mode with the closing paren next, while an
8-bit value gives indirect-X exactly on a following comma, literal x
and closing paren, or indirect-Y exactly on a following closing paren,
comma and literal y; every other continuation fails. -/
theorem indirect_mode_selection (fuel : Nat) (instr : Instr) (s : PState)
    (v : NumericValue) (s2 : PState) (e : Expr) (s3 : PState)
    (hbr : is_branching instr = false)
    (h1 : is_endline s = false) (h2 : is_eof s = false) (h3 : is_comment s = false)
    (hp : curr s = Token.PARENTOPEN)
    (hex : try_expand_math fuel (next s) = (Except.ok v, s2))
    (hres : state_instr_operand fuel instr s = (Except.ok e, s3)) :
    (8 < v.size →
      e = Expr.INSTR instr AdrMode.IND (Operand.VALUE v) ∧
      curr s2 = Token.PARENTCLOSE) ∧
    (v.size ≤ 8 →
      (e = Expr.INSTR instr AdrMode.INDX (Operand.VALUE v) ∧
        curr s2 = Token.COMMA ∧ curr (next s2) = Token.LITERAL "x" ∧
        curr (next (next s2)) = Token.PARENTCLOSE) ∨
      (e = Expr.INSTR instr AdrMode.INDY (Operand.VALUE v) ∧
        curr s2 = Token.PARENTCLOSE ∧ curr (next s2) = Token.COMMA ∧
        curr (next (next s2)) = Token.LITERAL "y")) := by
  have hh : curr s ≠ Token.HASH := by rw [hp]; simp
  have hstep : state_instr_operand fuel instr s = indirect_operand fuel instr s := by
    unfold state_instr_operand
    simp [h1, h2, h3, hbr, hh, hp]
  rw [hstep] at hres
  unfold indirect_operand at hres
  have hcons : consume Token.PARENTOPEN s = (Except.ok Token.PARENTOPEN, next s) := by
    unfold consume; rw [if_pos hp]
  simp only [hcons, hex] at hres
  by_cases hsz : 8 < v.size
  · rw [if_pos hsz] at hres
    refine ⟨fun _ => ?_, fun hle => absurd hsz (by omega)⟩
    split at hres
    · next u s3' heq =>
      simp only [Prod.mk.injEq, Except.ok.injEq] at hres
      exact ⟨hres.1.symm, (consume_ok heq).1⟩
    · simp at hres
  · rw [if_neg hsz] at hres
    refine ⟨fun hgt => absurd hgt hsz, fun _ => ?_⟩
    split at hres
    · -- comma continuation: the indirect-X form
      next hcomma =>
      left
      split at hres
      · simp at hres
      · next u s3' heqc =>
        split at hres
        · simp at hres
        · next ux s4 heqx =>
          split at hres
          · next up s5 heqp =>
            simp only [Prod.mk.injEq, Except.ok.injEq] at hres
            obtain ⟨hcx, hsx⟩ := consume_literal_ok heqx
            obtain ⟨hcp, _, _⟩ := consume_ok heqp
            have hs3 : s3' = next s2 := (consume_ok heqc).2.2
            refine ⟨hres.1.symm, hcomma, ?_, ?_⟩
            · rw [← hs3]; exact hcx
            · rw [hs3] at hsx; rw [← hsx]; exact hcp
          · simp at hres
    · -- no comma: the indirect-Y form
      right
      split at hres
      · simp at hres
      · next u s3' heqc =>
        split at hres
        · simp at hres
        · next uc s4 heqcm =>
          split at hres
          · next uy s5 heqy =>
            simp only [Prod.mk.injEq, Except.ok.injEq] at hres
            obtain ⟨hcp, _, hs3⟩ := consume_ok heqc
            obtain ⟨hcm, _, hs4⟩ := consume_ok heqcm
            obtain ⟨hcy, _⟩ := consume_literal_ok heqy
            refine ⟨hres.1.symm, hcp, ?_, ?_⟩
            · rw [← hs3]; exact hcm
            · rw [hs3] at hs4; rw [← hs4]; exact hcy
          · simp at hres

theorem eval_math_size_propagation_witness :
    eval_math 0 [] (MathExpr.NUM ⟨170, 8⟩) = Except.ok ⟨170, 8⟩ ∧
    (⟨301, 16⟩ : NumericValue).size =
      max (⟨1, 8⟩ : NumericValue).size (⟨300, 16⟩ : NumericValue).size :=
  ⟨(eval_math_size_propagation 0 [] ⟨170, 8⟩ Token.PLUS
      (MathExpr.NUM ⟨1, 8⟩) (MathExpr.NUM ⟨300, 16⟩) ⟨1, 8⟩ ⟨300, 16⟩ ⟨301, 16⟩).1,
   (eval_math_size_propagation 0 [] ⟨170, 8⟩ Token.PLUS
      (MathExpr.NUM ⟨1, 8⟩) (MathExpr.NUM ⟨300, 16⟩) ⟨1, 8⟩ ⟨300, 16⟩ ⟨301, 16⟩).2
      rfl rfl rfl⟩

theorem indirect_mode_selection_witness :
    (Expr.INSTR Instr.LDA AdrMode.INDY (Operand.VALUE ⟨255, 8⟩) =
        Expr.INSTR Instr.LDA AdrMode.INDX (Operand.VALUE ⟨255, 8⟩) ∧
      curr ⟨[Token.PARENTOPEN, Token.HEX "ff", Token.PARENTCLOSE, Token.COMMA,
             Token.LITERAL "y"], 2, []⟩ = Token.COMMA ∧
      curr (next ⟨[Token.PARENTOPEN, Token.HEX "ff", Token.PARENTCLOSE, Token.COMMA,
             Token.LITERAL "y"], 2, []⟩) = Token.LITERAL "x" ∧
      curr (next (next ⟨[Token.PARENTOPEN, Token.HEX "ff", Token.PARENTCLOSE, Token.COMMA,
             Token.LITERAL "y"], 2, []⟩)) = Token.PARENTCLOSE) ∨
    (Expr.INSTR Instr.LDA AdrMode.INDY (Operand.VALUE ⟨255, 8⟩) =
        Expr.INSTR Instr.LDA AdrMode.INDY (Operand.VALUE ⟨255, 8⟩) ∧
      curr ⟨[Token.PARENTOPEN, Token.HEX "ff", Token.PARENTCLOSE, Token.COMMA,
             Token.LITERAL "y"], 2, []⟩ = Token.PARENTCLOSE ∧
      curr (next ⟨[Token.PARENTOPEN, Token.HEX "ff", Token.PARENTCLOSE, Token.COMMA,
             Token.LITERAL "y"], 2, []⟩) = Token.COMMA ∧
      curr (next (next ⟨[Token.PARENTOPEN, Token.HEX "ff", Token.PARENTCLOSE, Token.COMMA,
             Token.LITERAL "y"], 2, []⟩)) = Token.LITERAL "y") :=
  (indirect_mode_selection 9 Instr.LDA
      ⟨[Token.PARENTOPEN, Token.HEX "ff", Token.PARENTCLOSE, Token.COMMA,
        Token.LITERAL "y"], 0, []⟩
      ⟨255, 8⟩
      ⟨[Token.PARENTOPEN, Token.HEX "ff", Token.PARENTCLOSE, Token.COMMA,
        Token.LITERAL "y"], 2, []⟩
      (Expr.INSTR Instr.LDA AdrMode.INDY (Operand.VALUE ⟨255, 8⟩))
      ⟨[Token.PARENTOPEN, Token.HEX "ff", Token.PARENTCLOSE, Token.COMMA,
        Token.LITERAL "y"], 5, []⟩
      rfl rfl rfl rfl rfl rfl rfl).2 (by decide)

/-- C9: for a token sequence a op1 b op2 c, two operators at the same
precedence level parse to the right-associated tree op1(a, op2(b, c));
a lower-precedence op1 before a higher-precedence op2 yields the same
tree (the product groups to the right of the sum), while a
higher-precedence op1 before a lower-precedence op2 yields
op2(op1(a, b), c): times and divide bind tighter than plus and minus.
The evaluator consumes exactly these trees (see the eval_math
theorems), so this grouping is what evaluation uses. -/
theorem math_parse_right_assoc_and_precedence
    (fuel : Nat) (vars : List (String × MathExpr)) (ta tb tc : Token)
    (va vb vc : NumericValue) (op1 op2 : Token)
    (hca : canonicalize_number ta = Except.ok va)
    (hcb : canonicalize_number tb = Except.ok vb)
    (hcc : canonicalize_number tc = Except.ok vc)
    (hta : ta ≠ Token.PARENTOPEN) (htb : tb ≠ Token.PARENTOPEN)
    (htc : tc ≠ Token.PARENTOPEN) :
    ((op1 = Token.PLUS ∨ op1 = Token.MINUS) → (op2 = Token.PLUS ∨ op2 = Token.MINUS) →
      (consume_math_expr (fuel + 5) ⟨[ta, op1, tb, op2, tc], 0, vars⟩).1 =
        Except.ok (MathExpr.BIN op1 (MathExpr.NUM va)
          (MathExpr.BIN op2 (MathExpr.NUM vb) (MathExpr.NUM vc)))) ∧
    ((op1 = Token.MULT ∨ op1 = Token.DIV) → (op2 = Token.MULT ∨ op2 = Token.DIV) →
      (consume_math_expr (fuel + 5) ⟨[ta, op1, tb, op2, tc], 0, vars⟩).1 =
        Except.ok (MathExpr.BIN op1 (MathExpr.NUM va)
          (MathExpr.BIN op2 (MathExpr.NUM vb) (MathExpr.NUM vc)))) ∧
    ((op1 = Token.PLUS ∨ op1 = Token.MINUS) → (op2 = Token.MULT ∨ op2 = Token.DIV) →
      (consume_math_expr (fuel + 5) ⟨[ta, op1, tb, op2, tc], 0, vars⟩).1 =
        Except.ok (MathExpr.BIN op1 (MathExpr.NUM va)
          (MathExpr.BIN op2 (MathExpr.NUM vb) (MathExpr.NUM vc)))) ∧
    ((op1 = Token.MULT ∨ op1 = Token.DIV) → (op2 = Token.PLUS ∨ op2 = Token.MINUS) →
      (consume_math_expr (fuel + 5) ⟨[ta, op1, tb, op2, tc], 0, vars⟩).1 =
        Except.ok (MathExpr.BIN op2
          (MathExpr.BIN op1 (MathExpr.NUM va) (MathExpr.NUM vb)) (MathExpr.NUM vc))) := by
  refine ⟨?_, ?_, ?_, ?_⟩ <;> rintro (rfl | rfl) (rfl | rfl) <;>
    simp [consume_math_expr, consume_math_term, consume_math_factor, consume_math_unary,
      curr, next, hca, hcb, hcc, hta, htb, htc]

theorem math_parse_right_assoc_and_precedence_witness :
    (consume_math_expr (0 + 5)
        ⟨[Token.HEX "1", Token.PLUS, Token.DEC "2", Token.MULT, Token.BIN "11"], 0, []⟩).1 =
      Except.ok (MathExpr.BIN Token.PLUS (MathExpr.NUM ⟨1, 8⟩)
        (MathExpr.BIN Token.MULT (MathExpr.NUM ⟨2, 8⟩) (MathExpr.NUM ⟨3, 8⟩))) :=
  (math_parse_right_assoc_and_precedence 0 [] (Token.HEX "1") (Token.DEC "2")
      (Token.BIN "11") ⟨1, 8⟩ ⟨2, 8⟩ ⟨3, 8⟩ Token.PLUS Token.MULT
      rfl rfl rfl (by decide) (by decide) (by decide)).2.2.1
    (Or.inl rfl) (Or.inl rfl)

end R6502
